import Mathlib

/-!
# Verification of the archgw routing subsystem

A shallow embedding of the routing subsystem of the `archgw` gateway
(crates `brightstaff`, `hermesllm`): the router prompt builder, the tolerant
router-response parser, route→model resolution, the preferences update
handler, the chat-completions proxy entry, and the streaming forward loop.

Rust `String`/`&str` values are embedded as `List Char` (`Str`); `.len()` is
the UTF-8 byte length `utf8Len`.  Rust's `str::replace` is `replaceAll`
(left-to-right, non-overlapping, the replacement is not rescanned); it is
written with an exact character-count fuel so that it is structurally
recursive and kernel-evaluable.
-/

set_option maxRecDepth 100000

namespace Archgw

abbrev Str := List Char

/-- The single-quote character `'` (spliced by code point). -/
def sqc : Char := Char.ofNat 39

/-- The backslash character. -/
def bsc : Char := Char.ofNat 92

/-- The double-quote character. -/
def dqc : Char := Char.ofNat 34

/-- The backtick character. -/
def btc : Char := Char.ofNat 96

/-- The open-brace character. -/
def lbc : Char := Char.ofNat 123

/-- The close-brace character. -/
def rbc : Char := Char.ofNat 125

/-- UTF-8 byte count of one scalar value (mirrors Rust `char::len_utf8`). -/
def utf8Size (c : Char) : Nat :=
  if c.toNat < 0x80 then 1
  else if c.toNat < 0x800 then 2
  else if c.toNat < 0x10000 then 3
  else 4

/-- UTF-8 byte length of a string, Rust's `str::len`. -/
def utf8Len : Str → Nat
  | [] => 0
  | c :: rest => utf8Size c + utf8Len rest

/-- `occursB pat s` decides whether `pat` occurs as a contiguous substring
of `s` (Rust `str::contains` for literal patterns). -/
def occursB (pat : Str) : Str → Bool
  | [] => pat.isEmpty
  | c :: rest => pat.isPrefixOf (c :: rest) || occursB pat rest

/-- Fuel-indexed worker for `replaceAll`, structurally recursive on the
fuel; any fuel at least the length of the text gives the same result. -/
def raGo (pat rep : Str) : Nat → Str → Str
  | 0, s => s
  | f + 1, s =>
    match s with
    | [] => []
    | c :: rest =>
      if pat ≠ [] ∧ pat.isPrefixOf (c :: rest) then
        rep ++ raGo pat rep f ((c :: rest).drop pat.length)
      else
        c :: raGo pat rep f rest


/-- Rust `str::replace(pat, rep)`: replace every non-overlapping occurrence
of `pat`, scanning left to right; the replacement text is never rescanned.
(The empty pattern is never used by the embedded code; here it matches
nowhere.) -/
def replaceAll (pat rep s : Str) : Str := raGo pat rep s.length s

/-- Join a list of strings with a separator (Rust `Vec::join`). -/
def joinSep (sep : Str) : List Str → Str
  | [] => []
  | [s] => s
  | s :: rest => s ++ sep ++ joinSep sep rest


/-- Decidable equality for characters used pervasively below. -/
def chEq (a b : Char) : Bool := a == b

/-- Decidable equality for `Except` results (used to evaluate concrete
outcomes). -/
instance {ε α : Type} [DecidableEq ε] [DecidableEq α] :
    DecidableEq (Except ε α) := fun a b =>
  match a, b with
  | .error e1, .error e2 =>
    if h : e1 = e2 then .isTrue (by rw [h])
    else .isFalse (fun hc => h (by injection hc))
  | .ok x, .ok y =>
    if h : x = y then .isTrue (by rw [h])
    else .isFalse (fun hc => h (by injection hc))
  | .error _, .ok _ => .isFalse (fun hc => Except.noConfusion hc)
  | .ok _, .error _ => .isFalse (fun hc => Except.noConfusion hc)

/-! ### Data model (hermesllm openai types, common configuration)

`MultiPartContentType`, `MultiPartContent`, `ContentType`, `Message` mirror
`src/crates/hermesllm/src/providers/openai/types.rs`.  `RoutingPreference`,
`ModelUsagePreference`, `LlmProvider` and the `{name, model, usage}` record
come from `common::configuration`, which is not under `src/`; they are
modelled from the spec (sections 3 and 6) and their uses in the handlers. -/

inductive MultiPartContentType where
  | text
  | imageUrl
deriving DecidableEq, Repr

structure MultiPartContent where
  text : Option Str
  content_type : MultiPartContentType
deriving DecidableEq, Repr

inductive ContentType where
  | text (t : Str)
  | multiPart (parts : List MultiPartContent)
deriving DecidableEq, Repr

structure Message where
  role : Str
  content : Option ContentType
deriving DecidableEq, Repr

/-- Modelled from the spec: `common::configuration::RoutingPreference`
(`{name, description}`, section 3) is not under `src/`. -/
structure RoutingPreference where
  name : Str
  description : Str
deriving DecidableEq, Repr

/-- Modelled from the spec: `common::configuration::ModelUsagePreference`
as used by `router_model_v1.rs` — the per-request override entry
`{model, routing_preferences}` (spec section 3, UsagePreferenceOverride). -/
structure ModelUsagePreference where
  model : Str
  routing_preferences : List RoutingPreference
deriving DecidableEq, Repr

/-- Modelled from the spec: `common::configuration::LlmProvider`
(`{name, model?, usage?}`, spec section 6 configuration schema). -/
structure LlmProvider where
  name : Str
  model : Option Str
  usage : Option Str
deriving DecidableEq, Repr

/-- Modelled from the spec: the `{name, model, usage}` record used by the
preferences handler and by `llm_router.rs` usage preferences (spec
sections 4.1 and 4.6). -/
structure ModelUsagePreferenceRec where
  name : Str
  model : Str
  usage : Option Str
deriving DecidableEq, Repr

/-- Modelled from the spec: role constants from `common::consts`
(not under `src/`; spec section 3 lists roles system/user/assistant/tool). -/
def SYSTEM_ROLE : Str := "system".data

/-- Modelled from the spec: see `SYSTEM_ROLE`. -/
def TOOL_ROLE : Str := "tool".data

/-- Modelled from the spec: see `SYSTEM_ROLE`. -/
def USER_ROLE : Str := "user".data

/-- `Display for ContentType` (types.rs lines 51-74): text content prints
itself; multi-part content joins the `text` parts with newlines and skips
`image_url` parts. -/
def contentDisplay : ContentType → Str
  | .text t => t
  | .multiPart parts =>
    joinSep "\n".data
      (parts.filterMap fun part =>
        match part.content_type with
        | .text => part.text
        | .imageUrl => none)

/-! ### JSON serialization (serde_json output for the embedded types) -/

/-- Lowercase hex digit. -/
def hexDigit (n : Nat) : Char :=
  if n < 10 then Char.ofNat (48 + n) else Char.ofNat (87 + n)

/-- serde_json escaping of one character inside a JSON string. -/
def escChar (c : Char) : Str :=
  if c = dqc then [bsc, dqc]
  else if c = bsc then [bsc, bsc]
  else if c.toNat = 10 then [bsc, 'n']
  else if c.toNat = 13 then [bsc, 'r']
  else if c.toNat = 9 then [bsc, 't']
  else if c.toNat = 8 then [bsc, 'b']
  else if c.toNat = 12 then [bsc, 'f']
  else if c.toNat < 32 then
    [bsc, 'u', '0', '0', hexDigit (c.toNat / 16), hexDigit (c.toNat % 16)]
  else [c]

/-- serde_json string literal: quotes around the escaped characters. -/
def escStr (s : Str) : Str := dqc :: (s.map escChar).flatten ++ [dqc]

/-- A serialized key of an object: `"key":`. -/
def jKey (k : String) : Str := escStr k.data ++ [':']

/-- serde_json for `MultiPartContent` (field order `text`, `type`;
`text : Option` is skipped when absent, `content_type` renames to
`type`, and the enum serializes to `"text"` / `"image_url"`). -/
def serializeMultiPart (p : MultiPartContent) : Str :=
  lbc ::
    ((match p.text with
      | some t => jKey "text" ++ escStr t ++ [',']
      | none => []) ++
     jKey "type" ++
       (match p.content_type with
        | .text => escStr "text".data
        | .imageUrl => escStr "image_url".data)) ++ [rbc]

/-- serde_json for the untagged `ContentType`. -/
def serializeContent : ContentType → Str
  | .text t => escStr t
  | .multiPart parts =>
    '[' :: joinSep [','] (parts.map serializeMultiPart) ++ [']']

/-- serde_json for `Message` (field order `role`, `content`; `content` is
skipped when `None` because of `skip_serializing_none`). -/
def serializeMessage (m : Message) : Str :=
  lbc ::
    (jKey "role" ++ escStr m.role ++
     (match m.content with
      | some c => ',' :: jKey "content" ++ serializeContent c
      | none => [])) ++ [rbc]

/-- serde_json for `Vec<Message>`. -/
def serializeMessages (msgs : List Message) : Str :=
  '[' :: joinSep [','] (msgs.map serializeMessage) ++ [']']

/-- serde_json for `RoutingPreference` (field order `name`,
`description`). -/
def serializeRoutingPref (p : RoutingPreference) : Str :=
  lbc ::
    (jKey "name" ++ escStr p.name ++ [','] ++
     jKey "description" ++ escStr p.description) ++ [rbc]

/-- serde_json for `Vec<RoutingPreference>`. -/
def serializeRoutingPrefs (ps : List RoutingPreference) : Str :=
  '[' :: joinSep [','] (ps.map serializeRoutingPref) ++ [']']

/-- The apostrophe as a one-character string (code point 39). -/
def apoS : String := String.singleton sqc

/-- The fixed router prompt template (source: router_model_v1.rs lines 14-32).
The apostrophe is spliced via `apoS` = `Char.ofNat 39`. -/
def ARCH_ROUTER_V1_SYSTEM_PROMPT : String :=
  "\nYou are a helpful assistant designed to find the best suited route.\nYou are provided with route description within <routes></routes> XML tags:\n<routes>\n\x7broutes\x7d\n</routes>\n\n<conversation>\n\x7bconversation\x7d\n</conversation>\n\nYour task is to decide which route is best suit with user intent on the conversation in <conversation></conversation> XML tags.  Follow the instruction:\n1. If the latest intent from user is irrelevant or user intent is full filled, response with other route \x7b\"route\": \"other\"\x7d.\n2. You must analyze the route descriptions and find the best match route for user latest intent.\n3. You only response the name of the route that best matches the user" ++ apoS ++ "s request, use the exact name in the <routes></routes>.\n\nBased on your analysis, provide your response in the following JSON formats if you decide to match any route:\n\x7b\"route\": \"route_name\"\x7d\n"

/-- Template text before the routes placeholder. -/
def promptA : String :=
  "\nYou are a helpful assistant designed to find the best suited route.\nYou are provided with route description within <routes></routes> XML tags:\n<routes>\n"

/-- Template text between the two placeholders. -/
def promptB : String :=
  "\n</routes>\n\n<conversation>\n"

/-- Template text after the conversation placeholder. -/
def promptC : String :=
  "\n</conversation>\n\nYour task is to decide which route is best suit with user intent on the conversation in <conversation></conversation> XML tags.  Follow the instruction:\n1. If the latest intent from user is irrelevant or user intent is full filled, response with other route \x7b\"route\": \"other\"\x7d.\n2. You must analyze the route descriptions and find the best match route for user latest intent.\n3. You only response the name of the route that best matches the user" ++ apoS ++ "s request, use the exact name in the <routes></routes>.\n\nBased on your analysis, provide your response in the following JSON formats if you decide to match any route:\n\x7b\"route\": \"route_name\"\x7d\n"

/-! ### RouterModelV1 (router_model_v1.rs) -/

/-- Default max token length for the routing model
(router_model_v1.rs line 13). -/
def MAX_TOKEN_LEN : Nat := 2048

/-- Approximate token length divisor (router_model_v1.rs line 70). -/
def TOKEN_LENGTH_DIVISOR : Nat := 4

/-- The in-memory state built by `RouterModelV1::new`. -/
structure RouterModelV1 where
  llm_route_json_str : Str
  llm_route_to_model_map : List (Str × Str)
  routing_model : Str
  max_token_length : Nat
deriving DecidableEq, Repr

/-- Lookup in a map built by `collect()` into a `HashMap` from a pair
iterator: a later pair with the same key overwrites an earlier one. -/
def hashLookup {α : Type} (pairs : List (Str × α)) (k : Str) : Option α :=
  ((pairs.filter fun pr => pr.1 == k).getLast?).map Prod.snd

/-- `RouterModelV1::new` (router_model_v1.rs lines 42-62).  The
`HashMap<String, Vec<RoutingPreference>>` argument is embedded as its
entry list in iteration order (keys distinct). -/
def RouterModelV1.new (llm_routes : List (Str × List RoutingPreference))
    (routing_model : Str) (max_token_length : Nat) : RouterModelV1 :=
  let llm_route_values : List RoutingPreference :=
    (llm_routes.map Prod.snd).flatten
  { llm_route_json_str := serializeRoutingPrefs llm_route_values
    llm_route_to_model_map :=
      (llm_routes.map fun mp => mp.2.map fun pref => (pref.name, mp.1)).flatten
    routing_model := routing_model
    max_token_length := max_token_length }

/-- The message filter of `generate_request` (router_model_v1.rs lines
81-84): drop system and tool roles and messages without content. -/
def filteredMessages (msgs : List Message) : List Message :=
  msgs.filter fun m =>
    !(m.role == SYSTEM_ROLE) && !(m.role == TOOL_ROLE) && m.content.isSome

/-- Per-message token estimate (router_model_v1.rs lines 91-97): UTF-8
byte length of the flattened content, divided by 4. -/
def msgTok (m : Message) : Nat :=
  utf8Len (contentDisplay (m.content.getD (ContentType.text []))) /
    TOKEN_LENGTH_DIVISOR

/-- The reverse-order selection loop of `generate_request`
(router_model_v1.rs lines 88-115), on the reversed filtered list: add
newest-first while the running total stays within budget; the message
that overflows is kept only when it is a user turn. -/
def selectRev (maxLen : Nat) : Nat → List Message → List Message
  | _, [] => []
  | tok, m :: rest =>
    let t := tok + msgTok m
    if t > maxLen then
      (if m.role == USER_ROLE then [m] else [])
    else m :: selectRev maxLen t rest

/-- Flatten a retained message content (`content.as_ref().unwrap()
.to_string()`; the filter guarantees content is present, so the `none`
arm is unreachable). -/
def flattenContent (m : Message) : Str :=
  match m.content with
  | some c => contentDisplay c
  | none => []

/-- The retained conversation of `generate_request` (router_model_v1.rs
lines 86-151): filter, budgeted reverse selection seeded with the
template length, fallback to the newest filtered message when nothing was
selected, then chronological order restored and contents flattened. -/
def selectedConversation (maxLen : Nat) (msgs : List Message) :
    List Message :=
  let fv := filteredMessages msgs
  let sel := selectRev maxLen
    (utf8Len ARCH_ROUTER_V1_SYSTEM_PROMPT.data / TOKEN_LENGTH_DIVISOR)
    fv.reverse
  let sel := if sel.isEmpty then
      (match fv.getLast? with
       | some m => [m]
       | none => [])
    else sel
  sel.reverse.map fun m => ⟨m.role, some (.text (flattenContent m))⟩

/-- `generate_router_message` (router_model_v1.rs lines 229-236): replace
`\x7broutes\x7d` with the routes JSON, then `\x7bconversation\x7d`
with the serialized conversation. -/
def generate_router_message (prefs : Str) (conv : List Message) : Str :=
  replaceAll "\x7bconversation\x7d".data (serializeMessages conv)
    (replaceAll "\x7broutes\x7d".data prefs
      ARCH_ROUTER_V1_SYSTEM_PROMPT.data)

/-- `convert_to_router_preferences` (router_model_v1.rs lines 238-258). -/
def convert_to_router_preferences
    (prefs : Option (List ModelUsagePreference)) : Option Str :=
  prefs.map fun ps =>
    serializeRoutingPrefs (ps.map ModelUsagePreference.routing_preferences).flatten

/-- The router request produced by `generate_request`; only the fields the
claims mention are embedded (`model` and the single user message). -/
structure ChatCompletionsRequest where
  model : Str
  messages : List Message
deriving DecidableEq, Repr

/-- `RouterModelV1::generate_request` (router_model_v1.rs lines 73-169). -/
def RouterModelV1.generate_request (rm : RouterModelV1)
    (msgs : List Message) (prefs : Option (List ModelUsagePreference)) :
    ChatCompletionsRequest :=
  let sel := selectedConversation rm.max_token_length msgs
  let router_message :=
    match convert_to_router_preferences prefs with
    | some p => generate_router_message p sel
    | none => generate_router_message rm.llm_route_json_str sel
  { model := rm.routing_model
    messages := [⟨USER_ROLE, some (.text router_message)⟩] }

/-! ### JSON values and a serde_json-style parser

`serde_json::from_str` is embedded as `parseJson`: whitespace-tolerant
recursive descent producing a `Json` value, then typed extraction.  The
parse error type `JErr` carries only an error kind — like
`serde_json::Error`, which records an error code and a position and never
the input text.  Numbers are kept as their raw character span (no claim
depends on numeric values). -/

inductive Json where
  | null
  | bool (b : Bool)
  | num (raw : Str)
  | str (s : Str)
  | arr (elems : List Json)
  | obj (fields : List (Str × Json))

inductive JErr where
  | eof
  | badEscape
  | fuel
  | unexpected
  | expectedColon
  | expectedCommaOrEnd
  | expectedKey
  | trailing
  | dupField
  | typeErr
deriving DecidableEq, Repr

/-- JSON whitespace. -/
def isWs (c : Char) : Bool :=
  c.toNat = 32 || c.toNat = 9 || c.toNat = 10 || c.toNat = 13

def skipWs (s : Str) : Str := s.dropWhile isWs

/-- Value of a hex digit. -/
def hexVal (c : Char) : Option Nat :=
  if 48 ≤ c.toNat ∧ c.toNat ≤ 57 then some (c.toNat - 48)
  else if 97 ≤ c.toNat ∧ c.toNat ≤ 102 then some (c.toNat - 87)
  else if 65 ≤ c.toNat ∧ c.toNat ≤ 70 then some (c.toNat - 55)
  else none

/-- Simple (one-character) JSON string escapes. -/
def simpleEsc (e : Char) : Option Char :=
  if e = dqc then some dqc
  else if e = bsc then some bsc
  else if e = '/' then some '/'
  else if e = 'n' then some (Char.ofNat 10)
  else if e = 'r' then some (Char.ofNat 13)
  else if e = 't' then some (Char.ofNat 9)
  else if e = 'b' then some (Char.ofNat 8)
  else if e = 'f' then some (Char.ofNat 12)
  else none

/-- Parse a JSON string body after the opening quote; returns the decoded
content and the rest after the closing quote.  The fuel is structural
(callers pass the input length plus one, always sufficient: every step
consumes at least one character). -/
def psb : Nat → Str → Except JErr (Str × Str)
  | 0, _ => .error .fuel
  | _ + 1, [] => .error .eof
  | f + 1, c :: rest =>
    if c = dqc then .ok ([], rest)
    else if c = bsc then
      match rest with
      | [] => .error .eof
      | e :: rest2 =>
        if e = 'u' then
          match rest2 with
          | h1 :: h2 :: h3 :: h4 :: rest3 =>
            match hexVal h1, hexVal h2, hexVal h3, hexVal h4 with
            | some a, some b, some c2, some d =>
              (psb f rest3).map fun pr =>
                (Char.ofNat (((a * 16 + b) * 16 + c2) * 16 + d) :: pr.1, pr.2)
            | _, _, _, _ => .error .badEscape
          | _ => .error .eof
        else
          match simpleEsc e with
          | some d => (psb f rest2).map fun pr => (d :: pr.1, pr.2)
          | none => .error .badEscape
    else (psb f rest).map fun pr => (c :: pr.1, pr.2)

/-- Characters a JSON number may continue with. -/
def isNumChar (c : Char) : Bool :=
  c.isDigit || c = '-' || c = '+' || c = '.' || c = 'e' || c = 'E'

/-- Expect a literal continuation (`rue`, `alse`, `ull`). -/
def expectLit (lit : Str) (s : Str) (v : Json) :
    Except JErr (Json × Str) :=
  if lit.isPrefixOf s then .ok (v, s.drop lit.length) else .error .unexpected

mutual

/-- Recursive-descent JSON value; the fuel bounds nesting and only
decreases, so any fuel above the input length is enough. -/
def parseValue : Nat → Str → Except JErr (Json × Str)
  | 0, _ => .error .fuel
  | f + 1, s =>
    match skipWs s with
    | [] => .error .eof
    | c :: rest =>
      if c = lbc then
        match skipWs rest with
        | [] => .error .eof
        | d :: r3 =>
          if d = rbc then .ok (.obj [], r3)
          else parseMembers f (d :: r3)
      else if c = '[' then
        match skipWs rest with
        | [] => .error .eof
        | d :: r3 =>
          if d = ']' then .ok (.arr [], r3)
          else (parseElems f (d :: r3)).map fun pr => (Json.arr pr.1, pr.2)
      else if c = dqc then
        (psb (rest.length + 1) rest).map fun pr => (Json.str pr.1, pr.2)
      else if c = 't' then expectLit "rue".data rest (Json.bool true)
      else if c = 'f' then expectLit "alse".data rest (Json.bool false)
      else if c = 'n' then expectLit "ull".data rest Json.null
      else if c.isDigit || c = '-' then
        .ok (Json.num ((c :: rest).takeWhile isNumChar),
             (c :: rest).dropWhile isNumChar)
      else .error .unexpected

/-- Members of an object after the opening brace (at least one). -/
def parseMembers : Nat → Str → Except JErr (Json × Str)
  | 0, _ => .error .fuel
  | f + 1, s =>
    match skipWs s with
    | [] => .error .eof
    | c :: rest =>
      if c = dqc then
        match psb (rest.length + 1) rest with
        | .error e => .error e
        | .ok (key, r1) =>
          match skipWs r1 with
          | [] => .error .eof
          | d :: r2 =>
            if d = ':' then
              match parseValue f r2 with
              | .error e => .error e
              | .ok (v, r3) =>
                match skipWs r3 with
                | [] => .error .eof
                | e2 :: r4 =>
                  if e2 = ',' then
                    match parseMembers f r4 with
                    | .error e => .error e
                    | .ok (Json.obj fields, r5) =>
                      .ok (Json.obj ((key, v) :: fields), r5)
                    | .ok _ => .error .unexpected
                  else if e2 = rbc then .ok (Json.obj [(key, v)], r4)
                  else .error .expectedCommaOrEnd
            else .error .expectedColon
      else .error .expectedKey

/-- Elements of an array after the opening bracket (at least one). -/
def parseElems : Nat → Str → Except JErr (List Json × Str)
  | 0, _ => .error .fuel
  | f + 1, s =>
    match parseValue f s with
    | .error e => .error e
    | .ok (v, r1) =>
      match skipWs r1 with
      | [] => .error .eof
      | c :: r2 =>
        if c = ',' then
          (parseElems f r2).map fun pr => (v :: pr.1, pr.2)
        else if c = ']' then .ok ([v], r2)
        else .error .expectedCommaOrEnd

end

/-- `serde_json::from_str` syntax phase: one value, then only trailing
whitespace. -/
def parseJson (s : Str) : Except JErr Json :=
  match parseValue (s.length + 1) s with
  | .error e => .error e
  | .ok (v, rest) =>
    if (skipWs rest).isEmpty then .ok v else .error .trailing

/-- Deserialize the `route` field of `LlmRouterResponse {route:
Option<String>}`: unknown fields are ignored, a duplicate `route` field or
a non-string non-null value is an error (serde semantics). -/
def routeFieldOfFields : List (Str × Json) → Except JErr (Option Str)
  | [] => .ok none
  | (k, v) :: rest =>
    if k = "route".data then
      if rest.any (fun kv => kv.1 == "route".data) then .error .dupField
      else
        match v with
        | Json.null => .ok none
        | Json.str s => .ok (some s)
        | _ => .error .typeErr
    else routeFieldOfFields rest

/-- `LlmRouterResponse` deserialization (router_model_v1.rs lines 65-68). -/
def llmRouterResponseOfJson : Json → Except JErr (Option Str)
  | Json.obj fields => routeFieldOfFields fields
  | _ => .error .typeErr

/-! ### Response parser (router_model_v1.rs lines 171-222 and 260-284) -/

/-- `RoutingModelError` (router_model.rs lines 5-9): wraps the JSON error
only — like `serde_json::Error` it carries no copy of the input text. -/
inductive RoutingModelError where
  | jsonError (e : JErr)
deriving DecidableEq, Repr

/-- `fix_json_response` (router_model_v1.rs lines 260-284), written as the
source writes it: quote swap, guarded literal-backslash-n removal, guarded
fence stripping. -/
def fix_json_response (body : Str) : Str :=
  let b1 := replaceAll [sqc] [dqc] body
  let b2 := if occursB [bsc, 'n'] b1 then replaceAll [bsc, 'n'] [] b1 else b1
  let b3 := if "```json".data.isPrefixOf b2 then b2.drop 7 else b2
  if "```".data.isSuffixOf b3 then b3.take (b3.length - 3) else b3

/-- `RouterModelV1::parse_response` (router_model_v1.rs lines 171-222). -/
def RouterModelV1.parse_response (rm : RouterModelV1) (content : Str)
    (prefs : Option (List ModelUsagePreference)) :
    Except RoutingModelError (Option (Str × Str)) :=
  if content.isEmpty then .ok none
  else
    match parseJson (fix_json_response content) with
    | .error e => .error (.jsonError e)
    | .ok j =>
      match llmRouterResponseOfJson j with
      | .error e => .error (.jsonError e)
      | .ok routeOpt =>
        let selected := routeOpt.getD []
        if selected.isEmpty || selected == "other".data then .ok none
        else
          match prefs with
          | some ups =>
            match (ups.filterMap fun pref =>
                if pref.routing_preferences.any
                    (fun rp => rp.name == selected)
                then some pref.model else none).head? with
            | some model => .ok (some (selected, model))
            | none => .ok none
          | none =>
            match hashLookup rm.llm_route_to_model_map selected with
            | some model => .ok (some (selected, model))
            | none => .ok none

/-- The staged cleaner as the spec words it (section 4.3 steps 2-5):
replace every single quote by a double quote, delete every literal
backslash-n two-character sequence, strip a leading three-backtick-json
fence, strip a trailing three-backtick fence. -/
def specCleanStages (body : Str) : Str :=
  let s1 := replaceAll [sqc] [dqc] body
  let s2 := replaceAll [bsc, 'n'] [] s1
  let s3 := if "```json".data.isPrefixOf s2 then s2.drop 7 else s2
  if "```".data.isSuffixOf s3 then s3.take (s3.length - 3) else s3

/-- The Response Parser as the spec words it (section 4.3): empty input
is `None`; otherwise parse the staged-cleaned string, failing with a
`ParseError` carrying the parser diagnostic; a `route` that is absent,
null, empty or `"other"` is `None`; otherwise resolve through the
override entries or the route→model map. -/
def specParseResponse (rm : RouterModelV1) (content : Str)
    (prefs : Option (List ModelUsagePreference)) :
    Except RoutingModelError (Option (Str × Str)) :=
  if content = [] then .ok none
  else
    match parseJson (specCleanStages content) with
    | .error e => .error (.jsonError e)
    | .ok j =>
      match llmRouterResponseOfJson j with
      | .error e => .error (.jsonError e)
      | .ok routeOpt =>
        match routeOpt with
        | none => .ok none
        | some route =>
          if route = [] ∨ route = "other".data then .ok none
          else
            match prefs with
            | some ups =>
              match (ups.filterMap fun pref =>
                  if pref.routing_preferences.any
                      (fun rp => rp.name == route)
                  then some pref.model else none).head? with
              | some model => .ok (some (route, model))
              | none => .ok none
            | none =>
              match hashLookup rm.llm_route_to_model_map route with
              | some model => .ok (some (route, model))
              | none => .ok none

/-! ### Router service (llm_router.rs) and proxy handler
(chat_completions.rs) -/

/-- `RoutingError` (llm_router.rs lines 25-35).  `jsonErrorBody` is the
response-body parse failure, which does attach the body; a router-model
error wraps `RoutingModelError` and attaches nothing. -/
inductive RoutingError where
  | requestError
  | jsonErrorBody (e : JErr) (body : Str)
  | routerModelError (e : RoutingModelError)
deriving DecidableEq, Repr

/-- A choice of the router LLM chat response; only the `message` field is
consumed (llm_router.rs line 156). -/
structure Choice where
  message : Message
deriving DecidableEq, Repr

/-- Modelled from the spec: the one-argument
`RouterModel::parse_response(content) -> Result<Option<String>>`
implementation called by `llm_router.rs` (declared in router_model.rs
line 19) is not under `src/` — `src` only has the newer two-argument
revision.  It is modelled from spec section 4.3 steps 1-7 (clean, parse,
extract the optional route), leaving the `"other"` sentinel to the
caller, which re-checks it at llm_router.rs line 160. -/
def parse_response_v0 (content : Str) :
    Except RoutingModelError (Option Str) :=
  if content = [] then .ok none
  else
    match parseJson (fix_json_response content) with
    | .error e => .error (.jsonError e)
    | .ok j =>
      match llmRouterResponseOfJson j with
      | .error e => .error (.jsonError e)
      | .ok routeOpt =>
        let selected := routeOpt.getD []
        if selected = [] then .ok none else .ok (some selected)

/-- The decision logic of `RouterService::determine_route` from the
parsed upstream chat response on (llm_router.rs lines 150-195): empty
choices or non-text content give `None`; a parse error propagates (the
`?` at line 159); `"other"` gives `None`; otherwise the route resolves
through the request usage preferences when present, else through the
provider map, where a provider without a `model` yields `None`. -/
def determine_route_post (choices : List Choice)
    (usage_preferences : Option (List ModelUsagePreferenceRec))
    (llm_provider_map : List (Str × LlmProvider)) :
    Except RoutingError (Option Str) :=
  match choices with
  | [] => .ok none
  | ch :: _ =>
    match ch.message.content with
    | some (.text content) =>
      match parse_response_v0 content with
      | .error e => .error (.routerModelError e)
      | .ok parsed =>
        .ok (match parsed with
          | some name =>
            if name = "other".data then none
            else
              match usage_preferences with
              | some ups =>
                (ups.find? fun u => u.name == name).map
                  ModelUsagePreferenceRec.model
              | none =>
                match hashLookup llm_provider_map name with
                | some prov => prov.model
                | none => none
          | none => none)
    | _ => .ok none

/-- What the proxy does with the routing decision
(chat_completions.rs lines 107-146): an `Err` from `determine_route`
becomes a 500 response; a `None` decision falls back to the
client-supplied model; the chosen string becomes the
`x-arch-llm-provider-hint` header of the forwarded request. -/
inductive ProxyAction where
  | respond500
  | forward (hint : Str)
deriving DecidableEq, Repr

def routeDecisionToAction (r : Except RoutingError (Option Str))
    (reqModel : Str) : ProxyAction :=
  match r with
  | .error _ => .respond500
  | .ok opt => .forward (opt.getD reqModel)

/-- Typed deserialization of a `MultiPartContent`
(`{text?, type}` with `type` one of `"text"`/`"image_url"`). -/
def multiPartOfJson : Json → Except JErr MultiPartContent
  | Json.obj fields =>
    match (fields.find? fun kv => kv.1 == "type".data).map Prod.snd with
    | some (Json.str t) =>
      let text :=
        match (fields.find? fun kv => kv.1 == "text".data).map Prod.snd with
        | some (Json.str s) => Except.ok (some s)
        | some Json.null => Except.ok none
        | none => Except.ok none
        | some _ => Except.error JErr.typeErr
      match text with
      | .error e => .error e
      | .ok txt =>
        if t = "text".data then .ok ⟨txt, .text⟩
        else if t = "image_url".data then .ok ⟨txt, .imageUrl⟩
        else .error .typeErr
    | _ => .error .typeErr
  | _ => .error .typeErr

/-- Typed deserialization of the untagged `ContentType`. -/
def contentOfJson : Json → Except JErr ContentType
  | Json.str s => .ok (.text s)
  | Json.arr elems =>
    (elems.mapM multiPartOfJson).map ContentType.multiPart
  | _ => .error .typeErr

/-- Typed deserialization of `Message` (`role` required, `content`
optional, unknown fields ignored). -/
def msgOfJson : Json → Except JErr Message
  | Json.obj fields =>
    match (fields.find? fun kv => kv.1 == "role".data).map Prod.snd with
    | some (Json.str r) =>
      match (fields.find? fun kv => kv.1 == "content".data).map Prod.snd with
      | none => .ok ⟨r, none⟩
      | some Json.null => .ok ⟨r, none⟩
      | some j => (contentOfJson j).map fun c => ⟨r, some c⟩
    | _ => .error .typeErr
  | _ => .error .typeErr

/-- Typed deserialization of the chat-completions request: `model`
(string) and `messages` (array) are required, as in the hermesllm
`ChatCompletionsRequest` struct; any other JSON value fails. -/
def chatReqOfJson : Json → Except JErr ChatCompletionsRequest
  | Json.obj fields =>
    match (fields.find? fun kv => kv.1 == "model".data).map Prod.snd with
    | some (Json.str m) =>
      match (fields.find? fun kv => kv.1 == "messages".data).map Prod.snd with
      | some (Json.arr elems) =>
        (elems.mapM msgOfJson).map fun msgs => ⟨m, msgs⟩
      | _ => .error .typeErr
    | _ => .error .typeErr
  | _ => .error .typeErr

/-- Outcome of the body-parsing phase of `chat_completions`. -/
inductive HandlerStep where
  | badRequest (msg : Str)
  | panicked
  | proceed (req : ChatCompletionsRequest)
deriving DecidableEq, Repr

/-- The body-parsing phase of `chat_completions` (chat_completions.rs
lines 32-59): the body is parsed as generic JSON with failures collapsed
to `Null` (lines 34-48); a `Null` value answers 400 (lines 50-56); then
the typed parse result is `.unwrap()`ed (lines 58-59) — an `Err` there
is a panic. -/
def chatCompletionsParse (body : Str) : HandlerStep :=
  match parseJson body with
  | .error _ => .badRequest "Request body is not valid JSON".data
  | .ok Json.null => .badRequest "Request body is not valid JSON".data
  | .ok v =>
    match chatReqOfJson v with
    | .error _ => .panicked
    | .ok req => .proceed req

/-! ### Preferences endpoint (preferences.rs lines 49-135) -/

/-- Result of `update_preferences`: HTTP status, the provider list after
the call, and the returned updated records. -/
structure PrefOutcome where
  status : Nat
  providers : List LlmProvider
  updated : List ModelUsagePreferenceRec
deriving DecidableEq, Repr

/-- The entry of the request batch keyed at `k` in `usage_model_map`
(preferences.rs lines 69-70): the map is keyed by each entry's `model`
field, and a later entry with the same key wins. -/
def lastEntryFor (usage : List ModelUsagePreferenceRec) (k : Str) :
    Option ModelUsagePreferenceRec :=
  (usage.filter fun u => u.model == k).getLast?

/-- `update_preferences` (preferences.rs lines 49-135) after body
deserialization: validate every map key (an entry's `model` field)
against provider names before touching anything (lines 79-98, answering
400), then replace the usage of every provider whose *name* equals some
entry batch-`model` key (lines 100-110), answering 404 when nothing
matched and 200 with the updated records otherwise. -/
def update_preferences (providers : List LlmProvider)
    (usage : List ModelUsagePreferenceRec) : PrefOutcome :=
  let names := providers.map LlmProvider.name
  if usage.any fun u => !(names.contains u.model) then
    ⟨400, providers, []⟩
  else
    let updatedProviders := providers.map fun p =>
      match lastEntryFor usage p.name with
      | some u => { p with usage := u.usage }
      | none => p
    let updated := providers.filterMap fun p =>
      match lastEntryFor usage p.name with
      | some u => some ⟨p.name, p.model.getD [], u.usage⟩
      | none => none
    if updated.isEmpty then ⟨404, updatedProviders, []⟩
    else ⟨200, updatedProviders, updated⟩

/-! ### Streaming forward loop (chat_completions.rs lines 179-203)

The spawned task reads the upstream byte stream item by item: an error
item breaks the loop; otherwise the chunk is sent into the bounded
channel and a failed send (client receiver dropped) breaks the loop.
`sendOk i` abstracts the success of the send of the i-th forwarded
chunk.  `pump` returns the chunks forwarded to the response body and the
number of upstream items read. -/
def pump (sendOk : Nat → Bool) :
    List (Except Unit Str) → Nat → List Str × Nat
  | [], _ => ([], 0)
  | .error _ :: _, _ => ([], 1)
  | .ok c :: rest, i =>
    if sendOk i then
      let pr := pump sendOk rest (i + 1)
      (c :: pr.1, pr.2 + 1)
    else ([], 1)

/-- Chunks delivered to the client response body. -/
def pumpSent (chunks : List (Except Unit Str)) (sendOk : Nat → Bool) :
    List Str :=
  (pump sendOk chunks 0).1

/-- Number of upstream stream items read. -/
def pumpReads (chunks : List (Except Unit Str)) (sendOk : Nat → Bool) :
    Nat :=
  (pump sendOk chunks 0).2

/-- The chunks an upstream item list carries (its `Ok` payloads). -/
def okChunks (chunks : List (Except Unit Str)) : List Str :=
  chunks.filterMap fun it =>
    match it with
    | .ok c => some c
    | .error _ => none

/-- Sum of the per-message token estimates. -/
def sumTok (l : List Message) : Nat := (l.map msgTok).sum

/-- The prompt text carried by a generated router request. -/
def requestPromptText (r : ChatCompletionsRequest) : Str :=
  match r.messages with
  | ⟨_, some (.text t)⟩ :: _ => t
  | _ => []

/-! ## Theorems -/

theorem raGo_fuel (pat rep : Str) :
    ∀ f g s, s.length ≤ f → s.length ≤ g →
      raGo pat rep f s = raGo pat rep g s := by
  intro f
  induction f with
  | zero =>
    intro g s hf _
    have : s = [] := List.length_eq_zero.mp (Nat.le_zero.mp hf)
    subst this
    cases g <;> rfl
  | succ f ih =>
    intro g s hf hg
    cases s with
    | nil => cases g <;> rfl
    | cons c rest =>
      cases g with
      | zero => simp at hg
      | succ g =>
        simp only [raGo]
        by_cases hm : pat ≠ [] ∧ pat.isPrefixOf (c :: rest)
        · rw [if_pos hm, if_pos hm]
          have hlen : ((c :: rest).drop pat.length).length ≤ rest.length := by
            have hp : 0 < pat.length := List.length_pos.mpr hm.1
            simp only [List.length_drop, List.length_cons]
            omega
          rw [ih g _ (le_trans hlen (Nat.succ_le_succ_iff.mp hf))
            (le_trans hlen (Nat.succ_le_succ_iff.mp hg))]
        · rw [if_neg hm, if_neg hm,
            ih g rest (Nat.succ_le_succ_iff.mp hf) (Nat.succ_le_succ_iff.mp hg)]

theorem replaceAll_nil (pat rep : Str) : replaceAll pat rep [] = [] := rfl

/-- Unfolding at a position where the pattern does not match. -/
theorem replaceAll_cons_no_match (pat rep : Str) (c : Char) (rest : Str)
    (h : ¬ pat.isPrefixOf (c :: rest)) :
    replaceAll pat rep (c :: rest) = c :: replaceAll pat rep rest := by
  show raGo pat rep (rest.length + 1) (c :: rest) = _
  simp only [raGo]
  rw [if_neg (fun hc => h hc.2)]
  rfl

/-- Unfolding at a match: the pattern is consumed, the replacement emitted,
and scanning resumes after the match. -/
theorem replaceAll_fire (pat rep z : Str) (hp : pat ≠ []) :
    replaceAll pat rep (pat ++ z) = rep ++ replaceAll pat rep z := by
  obtain ⟨p, ps, rfl⟩ : ∃ p ps, pat = p :: ps := by
    cases pat with
    | nil => exact absurd rfl hp
    | cons p ps => exact ⟨p, ps, rfl⟩
  show raGo _ _ ((ps ++ z).length + 1) (p :: (ps ++ z)) = _
  simp only [raGo]
  rw [if_pos ⟨hp, List.isPrefixOf_iff_prefix.mpr (List.prefix_append _ _)⟩]
  have hdrop : (p :: (ps ++ z)).drop (p :: ps).length = z := by
    simp
  rw [hdrop,
    raGo_fuel (p :: ps) rep (ps ++ z).length z.length z (by simp) le_rfl]
  rfl

/-- If the pattern occurs nowhere in the text, `replaceAll` is the
identity. -/
theorem replaceAll_of_not_occurs (pat rep : Str) (s : Str)
    (h : occursB pat s = false) : replaceAll pat rep s = s := by
  induction s with
  | nil => exact replaceAll_nil pat rep
  | cons c rest ih =>
    simp only [occursB, Bool.or_eq_false_iff] at h
    rw [replaceAll_cons_no_match pat rep c rest (by simp [h.1]), ih h.2]

/-- Skipping a left segment none of whose nonempty suffixes starts a
match. -/
theorem replaceAll_append_left (pat rep x y : Str)
    (H : ∀ s, s <:+ x → s ≠ [] → ¬ pat.isPrefixOf (s ++ y)) :
    replaceAll pat rep (x ++ y) = x ++ replaceAll pat rep y := by
  induction x with
  | nil => simp
  | cons c x' ih =>
    have h1 : ¬ pat.isPrefixOf (c :: (x' ++ y)) := by
      have := H (c :: x') (List.suffix_refl _) (by simp)
      simpa using this
    rw [show c :: x' ++ y = c :: (x' ++ y) from rfl,
      replaceAll_cons_no_match pat rep _ _ h1,
      ih (fun s hs hne => H s (hs.trans (List.suffix_cons c x')) hne)]
    simp

/-- If `pat` starts somewhere within a suffix of `x`, it occurs in `x`. -/
theorem occursB_true_of_sub (pat s x : Str) (hs : s <:+ x)
    (hp : pat <+: s) : occursB pat x = true := by
  induction x with
  | nil =>
    have hs' : s = [] := List.suffix_nil.mp hs
    subst hs'
    have : pat = [] := List.prefix_nil.mp hp
    simp [occursB, this]
  | cons c rest ih =>
    rcases List.suffix_cons_iff.mp hs with h | h
    · subst h
      simp [occursB, List.isPrefixOf_iff_prefix.mpr hp]
    · simp [occursB, ih h]

/-- No nonempty suffix of `x` starts a match of `pat` when the head of
`pat` does not occur in `x` at all. -/
theorem noMatch_of_head_notMem (pat x y : Str) (h : Char)
    (hh : pat.head? = some h) (hx : h ∉ x) :
    ∀ s, s <:+ x → s ≠ [] → ¬ pat.isPrefixOf (s ++ y) := by
  intro s hs hne hpre
  obtain ⟨c, s', rfl⟩ : ∃ c s', s = c :: s' := by
    cases s with
    | nil => exact absurd rfl hne
    | cons c s' => exact ⟨c, s', rfl⟩
  obtain ⟨p, pt, rfl⟩ : ∃ p pt, pat = p :: pt := by
    cases pat with
    | nil => simp at hh
    | cons p pt => exact ⟨p, pt, rfl⟩
  have hph : p = h := by simpa using hh
  have hpc : p = c :=
    (List.cons_prefix_cons.mp (List.isPrefixOf_iff_prefix.mp hpre)).1
  exact hx (hph ▸ hpc ▸ hs.subset (List.mem_cons_self c s'))

/-- No nonempty suffix of `x` starts a match of `pat` when `pat` does not
occur in `x` and the first character of `y` does not occur in `pat`. -/
theorem noMatch_of_not_occurs (pat x y : Str)
    (hocc : occursB pat x = false) (d : Char) (hd : y.head? = some d)
    (hdp : d ∉ pat) :
    ∀ s, s <:+ x → s ≠ [] → ¬ pat.isPrefixOf (s ++ y) := by
  intro s hs _ hpre
  have hp : pat <+: s ++ y := List.isPrefixOf_iff_prefix.mp hpre
  by_cases hlen : pat.length ≤ s.length
  · have htake : pat = s.take pat.length := by
      have h1 := List.prefix_iff_eq_take.mp hp
      rwa [List.take_append_eq_append_take, Nat.sub_eq_zero_of_le hlen,
        List.take_zero, List.append_nil] at h1
    have : pat <+: s := htake ▸ List.take_prefix pat.length s
    rw [occursB_true_of_sub pat s x hs this] at hocc
    simp at hocc
  · push_neg at hlen
    obtain ⟨t, ht⟩ := hp
    have hy : y = pat.drop s.length ++ t := by
      have h2 := congrArg (List.drop s.length) ht
      rw [List.drop_append_eq_append_drop, List.drop_append_eq_append_drop,
        Nat.sub_eq_zero_of_le (Nat.le_of_lt hlen), List.drop_zero,
        Nat.sub_self, List.drop_zero, List.drop_length,
        List.nil_append] at h2
      exact h2.symm
    have hdropne : pat.drop s.length ≠ [] := by
      intro hnil
      have := congrArg List.length hnil
      simp only [List.length_drop, List.length_nil] at this
      omega
    obtain ⟨e, es, he⟩ : ∃ e es, pat.drop s.length = e :: es := by
      cases hdrop : pat.drop s.length with
      | nil => exact absurd hdrop hdropne
      | cons e es => exact ⟨e, es, rfl⟩
    have hdy : y.head? = some e := by rw [hy, he]; rfl
    have : e = d := by rw [hdy] at hd; exact Option.some.inj hd
    subst this
    exact hdp (List.drop_subset s.length pat (he ▸ List.mem_cons_self e es))

/-- A single-character pattern does not occur in a string avoiding it. -/
theorem occursB_single_eq_false (a : Char) (s : Str)
    (h : ∀ c ∈ s, c ≠ a) : occursB [a] s = false := by
  induction s with
  | nil => rfl
  | cons c rest ih =>
    have hca : (a == c) = false :=
      beq_eq_false_iff_ne.mpr
        fun hac => (h c (List.mem_cons_self c rest)) hac.symm
    simp only [occursB, List.isPrefixOf, hca, Bool.false_and,
      Bool.false_or]
    exact ih fun c' hc' => h c' (List.mem_cons_of_mem c hc')

/-- A two-character pattern does not occur in a string avoiding its first
character. -/
theorem occursB_pair_eq_false (a b : Char) (s : Str)
    (h : ∀ c ∈ s, c ≠ a) : occursB [a, b] s = false := by
  induction s with
  | nil => rfl
  | cons c rest ih =>
    have hca : (a == c) = false :=
      beq_eq_false_iff_ne.mpr
        fun hac => (h c (List.mem_cons_self c rest)) hac.symm
    simp only [occursB, List.isPrefixOf, hca, Bool.false_and,
      Bool.false_or]
    exact ih fun c' hc' => h c' (List.mem_cons_of_mem c hc')

/-- A nonempty pattern whose last character differs from the last
character of `s` is not a suffix of `s`. -/
theorem isSuffixOf_false_of_last_ne (pat s : Str) (x y : Char)
    (hs : s.getLast? = some x) (hp : pat.getLast? = some y)
    (hxy : x ≠ y) : pat.isSuffixOf s = false := by
  by_contra hcon
  have hsuf : pat <:+ s :=
    List.isSuffixOf_iff_suffix.mp (Bool.of_not_eq_false hcon)
  obtain ⟨t, ht⟩ := hsuf
  have hpne : pat ≠ [] := by
    intro hnil
    rw [hnil] at hp
    simp at hp
  have : s.getLast? = pat.getLast? := by
    rw [← ht, List.getLast?_append]
    cases hlast : pat.getLast? with
    | none => exact absurd (List.getLast?_eq_none_iff.mp hlast) hpne
    | some z => rfl
  rw [hs, hp] at this
  exact hxy (Option.some.inj this)

/-- A list prefix flattens to a string prefix. -/
theorem flatten_pre_of_pre (l₁ l₂ : List Str) (h : l₁ <+: l₂) :
    l₁.flatten <+: l₂.flatten := by
  obtain ⟨t, ht⟩ := h
  exact ⟨t.flatten, by rw [← List.flatten_append, ht]⟩

/-- The last element of a nonempty constant list. -/
theorem getLast?_of_all_eq {α : Type} (l : List α) (v : α)
    (h : ∀ x ∈ l, x = v) (hne : l ≠ []) : l.getLast? = some v := by
  induction l with
  | nil => exact absurd rfl hne
  | cons a rest ih =>
    cases rest with
    | nil => simp [h a (List.mem_cons_self a [])]
    | cons b bs =>
      rw [List.getLast?_cons_cons]
      exact ih (fun x hx => h x (List.mem_cons_of_mem a hx)) (by simp)

/-- `hashLookup` on a key list all of whose hits carry the same value. -/
theorem hashLookup_all_eq {α : Type} (pairs : List (Str × α)) (n : Str)
    (m : α) (hmem : (n, m) ∈ pairs)
    (hall : ∀ x ∈ pairs, x.1 = n → x.2 = m) :
    hashLookup pairs n = some m := by
  have hconst : ∀ x ∈ pairs.filter (fun pr => pr.1 == n), x = (n, m) := by
    intro x hx
    obtain ⟨hx1, hx2⟩ := List.mem_filter.mp hx
    have h1 : x.1 = n := by simpa using hx2
    have h2 : x.2 = m := hall x hx1 h1
    calc x = (x.1, x.2) := rfl
    _ = (n, m) := by rw [h1, h2]
  have hne : pairs.filter (fun pr => pr.1 == n) ≠ [] := by
    intro hnil
    have : (n, m) ∈ pairs.filter (fun pr => pr.1 == n) :=
      List.mem_filter.mpr ⟨hmem, by simp⟩
    rw [hnil] at this
    exact List.not_mem_nil (n, m) this
  rw [hashLookup, getLast?_of_all_eq _ (n, m) hconst hne]
  rfl

/-- An element produced by `getLast?` is in the list. -/
theorem mem_of_getLast?_eq {α : Type} {l : List α} {a : α}
    (h : l.getLast? = some a) : a ∈ l := by
  induction l with
  | nil => simp at h
  | cons x rest ih =>
    cases rest with
    | nil =>
      simp only [List.getLast?_singleton, Option.some.injEq] at h
      simp [h]
    | cons y ys =>
      rw [List.getLast?_cons_cons] at h
      exact List.mem_cons_of_mem x (ih h)

/-- The selection loop only returns input messages. -/
theorem selectRev_subset (maxLen : Nat) :
    ∀ (l : List Message) (tok : Nat), ∀ m ∈ selectRev maxLen tok l, m ∈ l := by
  intro l
  induction l with
  | nil => intro tok m hm; simp [selectRev] at hm
  | cons a rest ih =>
    intro tok m hm
    simp only [selectRev] at hm
    by_cases hb : maxLen < tok + msgTok a
    · rw [if_pos hb] at hm
      by_cases hu : a.role == USER_ROLE
      · rw [if_pos hu] at hm
        rw [List.mem_singleton.mp hm]
        exact List.mem_cons_self a rest
      · rw [if_neg hu] at hm
        exact absurd hm (List.not_mem_nil m)
    · rw [if_neg hb] at hm
      rcases List.mem_cons.mp hm with h | h
      · rw [h]; exact List.mem_cons_self a rest
      · exact List.mem_cons_of_mem a (ih (tok + msgTok a) m h)

/-- Budget invariant of the selection loop: within budget, or the
last-pushed (chronologically first) message is a kept-over-budget user
turn, or nothing was selected. -/
theorem selectRev_budget (maxLen : Nat) :
    ∀ (l : List Message) (tok : Nat),
      tok + sumTok (selectRev maxLen tok l) ≤ maxLen ∨
      (∃ u, (selectRev maxLen tok l).getLast? = some u ∧
        u.role = USER_ROLE) ∨
      selectRev maxLen tok l = [] := by
  intro l
  induction l with
  | nil => intro tok; right; right; rfl
  | cons a rest ih =>
    intro tok
    by_cases hb : maxLen < tok + msgTok a
    · by_cases hu : a.role == USER_ROLE
      · right; left
        refine ⟨a, ?_, by simpa using hu⟩
        simp [selectRev, if_pos hb, hu]
      · right; right
        simp [selectRev, if_pos hb, hu]
    · have hsel : selectRev maxLen tok (a :: rest) =
          a :: selectRev maxLen (tok + msgTok a) rest := by
        simp [selectRev, if_neg hb]
      rcases ih (tok + msgTok a) with h1 | ⟨u, hu, hur⟩ | h3
      · left
        rw [hsel]
        have : sumTok (a :: selectRev maxLen (tok + msgTok a) rest) =
            msgTok a + sumTok (selectRev maxLen (tok + msgTok a) rest) := by
          simp [sumTok]
        omega
      · right; left
        refine ⟨u, ?_, hur⟩
        rw [hsel, show a :: selectRev maxLen (tok + msgTok a) rest =
          [a] ++ selectRev maxLen (tok + msgTok a) rest from rfl,
          List.getLast?_append, hu]
        rfl
      · left
        rw [hsel, h3]
        simp only [sumTok, List.map_cons, List.map_nil, List.sum_cons,
          List.sum_nil]
        omega

/-- Flattening a retained message does not change its token estimate. -/
theorem msgTok_flatten (m : Message) :
    msgTok ⟨m.role, some (.text (flattenContent m))⟩ = msgTok m := by
  cases hc : m.content with
  | none => simp [msgTok, flattenContent, hc, contentDisplay]
  | some c => simp [msgTok, flattenContent, hc, contentDisplay]

/-- `sumTok` is preserved by the final reverse-and-flatten step. -/
theorem sumTok_reverse_map (l : List Message) :
    sumTok (l.reverse.map fun m =>
      (⟨m.role, some (.text (flattenContent m))⟩ : Message)) = sumTok l := by
  simp only [sumTok, List.map_map, List.map_reverse, List.sum_reverse]
  congr 1
  exact List.map_congr_left fun m _ => msgTok_flatten m

/-- **C9** (amended).  For every routes string and conversation, the
Prompt Builder output equals the template with `\x7broutes\x7d` replaced
by the routes string and `\x7bconversation\x7d` replaced by the
serialized conversation, all other template characters preserved —
*provided* the routes string does not itself contain the substring
`\x7bconversation\x7d` (otherwise the second `str::replace` pass also
rewrites those occurrences inside the routes text). -/
theorem c9_router_prompt_substitution (prefs : Str) (conv : List Message)
    (hocc : occursB "\x7bconversation\x7d".data prefs = false) :
    generate_router_message prefs conv =
      promptA.data ++ prefs ++ promptB.data ++
        serializeMessages conv ++ promptC.data := by
  have hdecomp : ARCH_ROUTER_V1_SYSTEM_PROMPT.data =
      promptA.data ++ ("\x7broutes\x7d".data ++ (promptB.data ++
        ("\x7bconversation\x7d".data ++ promptC.data))) := by decide
  unfold generate_router_message
  rw [hdecomp]
  rw [replaceAll_append_left "\x7broutes\x7d".data prefs promptA.data _
    (noMatch_of_head_notMem _ _ _ lbc (by decide) (by decide))]
  rw [replaceAll_fire "\x7broutes\x7d".data prefs _ (by decide)]
  rw [replaceAll_of_not_occurs "\x7broutes\x7d".data prefs _ (by decide)]
  rw [replaceAll_append_left "\x7bconversation\x7d".data
    (serializeMessages conv) promptA.data _
    (noMatch_of_head_notMem _ _ _ lbc (by decide) (by decide))]
  rw [replaceAll_append_left "\x7bconversation\x7d".data
    (serializeMessages conv) prefs
    (promptB.data ++ ("\x7bconversation\x7d".data ++ promptC.data))
    (noMatch_of_not_occurs _ _ _ hocc (Char.ofNat 10) (by decide)
      (by decide))]
  rw [replaceAll_append_left "\x7bconversation\x7d".data
    (serializeMessages conv) promptB.data _
    (noMatch_of_head_notMem _ _ _ lbc (by decide) (by decide))]
  rw [replaceAll_fire "\x7bconversation\x7d".data
    (serializeMessages conv) promptC.data (by decide)]
  rw [replaceAll_of_not_occurs "\x7bconversation\x7d".data
    (serializeMessages conv) promptC.data (by decide)]
  simp [List.append_assoc]

/-- **C9** witness: the substitution equality at a concrete input. -/
theorem c9_witness :
    generate_router_message "x".data [] =
      promptA.data ++ "x".data ++ promptB.data ++
        serializeMessages [] ++ promptC.data :=
  c9_router_prompt_substitution "x".data [] (by decide)

/-- **C9** counterexample to the unconditional claim: a routes string
that contains `\x7bconversation\x7d` is rewritten again by the second
replace, so the output is not the template with the two placeholders
substituted once each. -/
theorem c9_counterexample :
    ¬ (generate_router_message "\x7bconversation\x7d".data [] =
      promptA.data ++ "\x7bconversation\x7d".data ++ promptB.data ++
        serializeMessages [] ++ promptC.data) := by decide

/-- **C4** (amended).  Every message embedded in the router prompt
conversation has a role other than `system` and `tool` (any other role
string is retained, not only `user`/`assistant`) and carries the textual
flattening of a present original content — possibly the empty string;
system turns, tool turns, content-absent (tool-call-only) turns and
`image_url` parts never appear. -/
theorem c4_retained_messages (maxLen : Nat) (msgs : List Message) :
    ∀ m ∈ selectedConversation maxLen msgs,
      m.role ≠ SYSTEM_ROLE ∧ m.role ≠ TOOL_ROLE ∧
      ∃ orig, orig ∈ msgs ∧ orig.role = m.role ∧
        ∃ c, orig.content = some c ∧
          m.content = some (ContentType.text (contentDisplay c)) := by
  intro m hm
  simp only [selectedConversation] at hm
  obtain ⟨o, ho, rfl⟩ := List.mem_map.mp hm
  have ho' : o ∈ filteredMessages msgs := by
    rw [List.mem_reverse] at ho
    by_cases hsel : (selectRev maxLen
        (utf8Len ARCH_ROUTER_V1_SYSTEM_PROMPT.data / TOKEN_LENGTH_DIVISOR)
        (filteredMessages msgs).reverse).isEmpty
    · rw [if_pos hsel] at ho
      cases hlast : (filteredMessages msgs).getLast? with
      | none => rw [hlast] at ho; exact absurd ho (List.not_mem_nil o)
      | some mlast =>
        rw [hlast] at ho
        rw [List.mem_singleton.mp ho]
        exact mem_of_getLast?_eq hlast
    · rw [if_neg hsel] at ho
      have := selectRev_subset maxLen (filteredMessages msgs).reverse
        (utf8Len ARCH_ROUTER_V1_SYSTEM_PROMPT.data / TOKEN_LENGTH_DIVISOR)
        o ho
      exact List.mem_reverse.mp this
  obtain ⟨homem, hpred⟩ := List.mem_filter.mp ho'
  have h1 : o.role ≠ SYSTEM_ROLE := by
    intro hc
    simp [hc] at hpred
  have h2 : o.role ≠ TOOL_ROLE := by
    intro hc
    simp [hc] at hpred
  have h3 : o.content.isSome := by
    rcases Bool.and_eq_true_iff.mp hpred with ⟨_, h⟩
    exact h
  obtain ⟨c, hc⟩ := Option.isSome_iff_exists.mp h3
  exact ⟨h1, h2, o, homem, rfl, c, hc, by simp [flattenContent, hc]⟩

/-- **C4** witness at a concrete conversation. -/
theorem c4_witness :
    (⟨"user".data, some (.text "hi".data)⟩ : Message).role ≠ SYSTEM_ROLE ∧
    (⟨"user".data, some (.text "hi".data)⟩ : Message).role ≠ TOOL_ROLE ∧
    ∃ orig, orig ∈ [(⟨"user".data, some (.text "hi".data)⟩ : Message)] ∧
      orig.role = (⟨"user".data, some (.text "hi".data)⟩ : Message).role ∧
      ∃ c, orig.content = some c ∧
        (⟨"user".data, some (.text "hi".data)⟩ : Message).content =
          some (ContentType.text (contentDisplay c)) :=
  c4_retained_messages 2048 [⟨"user".data, some (.text "hi".data)⟩]
    ⟨"user".data, some (.text "hi".data)⟩ (by decide)

/-- **C4** counterexample to the claim as stated: a message with role
`banana` (neither `user` nor `assistant`) and a user message whose
content is the empty string are both retained and embedded verbatim. -/
theorem c4_counterexample :
    selectedConversation 2048
        [⟨"banana".data, some (.text "hi".data)⟩,
         ⟨"user".data, some (.text [])⟩] =
      [⟨"banana".data, some (.text "hi".data)⟩,
       ⟨"user".data, some (.text [])⟩] ∧
    "banana".data ≠ USER_ROLE ∧ "banana".data ≠ "assistant".data := by
  decide

/-- **C5** (amended).  The budget check bounds the *internal* estimate:
the template byte length over 4 plus the sum of the retained messages'
content byte lengths over 4 is at most the configured maximum — or the
chronologically first retained message is a user turn kept despite
overflowing, or at most one message is retained (the newest-message
fallback).  The emitted prompt's own character count is *not* bounded:
the routes JSON and the per-message JSON framing are never counted. -/
theorem c5_token_budget (maxLen : Nat) (msgs : List Message) :
    utf8Len ARCH_ROUTER_V1_SYSTEM_PROMPT.data / TOKEN_LENGTH_DIVISOR +
        sumTok (selectedConversation maxLen msgs) ≤ maxLen ∨
      (selectedConversation maxLen msgs).head?.map Message.role =
        some USER_ROLE ∨
      (selectedConversation maxLen msgs).length ≤ 1 := by
  by_cases hsel : (selectRev maxLen
      (utf8Len ARCH_ROUTER_V1_SYSTEM_PROMPT.data / TOKEN_LENGTH_DIVISOR)
      (filteredMessages msgs).reverse).isEmpty
  · right; right
    simp only [selectedConversation, if_pos hsel]
    cases (filteredMessages msgs).getLast? <;> simp
  · rcases selectRev_budget maxLen (filteredMessages msgs).reverse
      (utf8Len ARCH_ROUTER_V1_SYSTEM_PROMPT.data / TOKEN_LENGTH_DIVISOR)
      with h1 | ⟨u, hu, hur⟩ | h3
    · left
      simp only [selectedConversation, if_neg hsel]
      rw [sumTok_reverse_map]
      omega
    · right; left
      simp only [selectedConversation, if_neg hsel]
      rw [List.head?_map, List.head?_reverse, hu]
      simp [hur]
    · rw [h3] at hsel
      simp at hsel

/-- **C5** counterexample to the claim as stated, at the configuration the
repository's own tests use (`max_token_length = 235`): the internal
estimate admits both messages, yet the emitted prompt is 996 bytes — 249
estimated tokens, over the budget — and the retained set is not a single
user turn. -/
theorem c5_counterexample :
    235 < utf8Len (requestPromptText
        ((RouterModelV1.new
            [("gpt-4o".data,
              [⟨"Image generation".data, "generating image".data⟩])]
            "test-model".data 235).generate_request
          [⟨"user".data, some (.text "hi".data)⟩,
           ⟨"assistant".data,
             some (.text "Hello! How can I assist you today?".data)⟩]
          none)) / TOKEN_LENGTH_DIVISOR ∧
    (selectedConversation 235
        [⟨"user".data, some (.text "hi".data)⟩,
         ⟨"assistant".data,
           some (.text "Hello! How can I assist you today?".data)⟩]).length
      = 2 := by
  decide

theorem psb_plain (n rest : Str) (hn : ∀ c ∈ n, c ≠ dqc ∧ c ≠ bsc) :
    psb ((n ++ dqc :: rest).length + 1) (n ++ dqc :: rest) =
      .ok (n, rest) := by
  induction n with
  | nil =>
    show psb (rest.length + 1 + 1) (dqc :: rest) = Except.ok ([], rest)
    unfold psb
    rw [if_pos rfl]
  | cons c n' ih =>
    have hc := hn c (List.mem_cons_self c n')
    rw [List.cons_append, psb.eq_def]
    simp only [List.length_cons]
    rw [if_neg hc.1, if_neg hc.2,
      ih (fun c' hc' => hn c' (List.mem_cons_of_mem c hc'))]
    rfl

theorem parseValue_str (f : Nat) (n rest2 : Str)
    (hn : ∀ c ∈ n, c ≠ dqc ∧ c ≠ bsc) :
    parseValue (f + 1) (dqc :: (n ++ (dqc :: rest2))) =
      .ok (Json.str n, rest2) := by
  change (psb ((n ++ (dqc :: rest2)).length + 1) (n ++ (dqc :: rest2))).map
      (fun pr => (Json.str pr.1, pr.2)) =
    Except.ok (Json.str n, rest2)
  rw [psb_plain n rest2 hn]
  rfl

theorem parseMembers_route (f : Nat) (n rest' : Str)
    (hn : ∀ c ∈ n, c ≠ dqc ∧ c ≠ bsc) :
    parseMembers (f + 2)
      (dqc :: ("route".data ++
        (dqc :: ':' :: dqc :: (n ++ (dqc :: rbc :: rest'))))) =
      .ok (Json.obj [("route".data, Json.str n)], rest') := by
  have hkey : psb (("route".data ++
      (dqc :: (':' :: dqc :: (n ++ (dqc :: rbc :: rest'))))).length + 1)
      ("route".data ++ (dqc :: (':' :: dqc :: (n ++ (dqc :: rbc :: rest'))))) =
      .ok ("route".data, ':' :: dqc :: (n ++ (dqc :: rbc :: rest'))) :=
    psb_plain "route".data _ (by decide)
  change (match psb (("route".data ++
      (dqc :: (':' :: dqc :: (n ++ (dqc :: rbc :: rest'))))).length + 1)
      ("route".data ++
        (dqc :: (':' :: dqc :: (n ++ (dqc :: rbc :: rest'))))) with
    | .error e => Except.error e
    | .ok (key, r1) =>
      match skipWs r1 with
      | [] => Except.error JErr.eof
      | d :: r2 =>
        if d = ':' then
          match parseValue (f + 1) r2 with
          | .error e => Except.error e
          | .ok (v, r3) =>
            match skipWs r3 with
            | [] => Except.error JErr.eof
            | e2 :: r4 =>
              if e2 = ',' then
                match parseMembers (f + 1) r4 with
                | .error e => Except.error e
                | .ok (Json.obj fields, r5) =>
                  Except.ok (Json.obj ((key, v) :: fields), r5)
                | .ok _ => Except.error JErr.unexpected
              else if e2 = rbc then Except.ok (Json.obj [(key, v)], r4)
              else Except.error JErr.expectedCommaOrEnd
        else Except.error JErr.expectedColon) =
    Except.ok (Json.obj [("route".data, Json.str n)], rest')
  rw [hkey]
  show (match parseValue (f + 1) (dqc :: (n ++ (dqc :: (rbc :: rest')))) with
    | .error e => Except.error e
    | .ok (v, r3) =>
      match skipWs r3 with
      | [] => Except.error JErr.eof
      | e2 :: r4 =>
        if e2 = ',' then
          match parseMembers (f + 1) r4 with
          | .error e => Except.error e
          | .ok (Json.obj fields, r5) =>
            Except.ok (Json.obj (("route".data, v) :: fields), r5)
          | .ok _ => Except.error JErr.unexpected
        else if e2 = rbc then Except.ok (Json.obj [("route".data, v)], r4)
        else Except.error JErr.expectedCommaOrEnd) =
    Except.ok (Json.obj [("route".data, Json.str n)], rest')
  rw [parseValue_str f n (rbc :: rest') hn]
  rfl

theorem parseValue_route (f : Nat) (n rest' : Str)
    (hn : ∀ c ∈ n, c ≠ dqc ∧ c ≠ bsc) :
    parseValue (f + 3)
      (lbc :: (dqc :: ("route".data ++
        (dqc :: ':' :: dqc :: (n ++ (dqc :: rbc :: rest')))))) =
      .ok (Json.obj [("route".data, Json.str n)], rest') := by
  change parseMembers (f + 2)
      (dqc :: ("route".data ++
        (dqc :: ':' :: dqc :: (n ++ (dqc :: rbc :: rest'))))) = _
  exact parseMembers_route f n rest' hn

theorem parseJson_route (n : Str) (hn : ∀ c ∈ n, c ≠ dqc ∧ c ≠ bsc) :
    parseJson ("\x7b\"route\":\"".data ++ (n ++ "\"\x7d".data)) =
      .ok (Json.obj [("route".data, Json.str n)]) := by
  unfold parseJson
  have hlen : ("\x7b\"route\":\"".data ++ (n ++ "\"\x7d".data)).length + 1 =
      (n.length + 10) + 3 := by
    simp [List.length_append]
  rw [hlen]
  have hshape : "\x7b\"route\":\"".data ++ (n ++ "\"\x7d".data) =
      lbc :: (dqc :: ("route".data ++
        (dqc :: ':' :: dqc :: (n ++ (dqc :: rbc :: []))))) := rfl
  rw [hshape, parseValue_route (n.length + 10) n [] hn]
  rfl

theorem isPrefixOf_false_of_head_ne (pat s : Str) (a b : Char)
    (hp : pat.head? = some a) (hs : s.head? = some b) (hab : a ≠ b) :
    pat.isPrefixOf s = false := by
  by_contra h
  have hpre : pat <+: s :=
    List.isPrefixOf_iff_prefix.mp (Bool.of_not_eq_false h)
  obtain ⟨a', pt, rfl⟩ : ∃ a' pt, pat = a' :: pt := by
    cases pat with
    | nil => simp at hp
    | cons x xs => exact ⟨x, xs, rfl⟩
  obtain ⟨b', st, rfl⟩ : ∃ b' st, s = b' :: st := by
    cases s with
    | nil => simp at hs
    | cons x xs => exact ⟨x, xs, rfl⟩
  have ha : a' = a := by simpa using hp
  have hb : b' = b := by simpa using hs
  exact hab (ha ▸ hb ▸ (List.cons_prefix_cons.mp hpre).1)

theorem fix_json_id (R : Str) (hsq : occursB [sqc] R = false)
    (hbs : occursB [bsc, 'n'] R = false)
    (hf1 : "```json".data.isPrefixOf R = false)
    (hf2 : "```".data.isSuffixOf R = false) :
    fix_json_response R = R := by
  simp only [fix_json_response]
  rw [replaceAll_of_not_occurs _ _ _ hsq, hbs]
  simp only [Bool.false_eq_true, if_false]
  rw [hf1]
  simp only [Bool.false_eq_true, if_false]
  rw [hf2]
  simp only [Bool.false_eq_true, if_false]

/-- **C7** (amended).  Route-to-model resolution round-trip: if provider
`m` claims route name `n` in the catalog, no other provider claims `n`,
no override is in effect, and `n` is non-empty, different from `"other"`
and free of characters the tolerant cleaner or JSON quoting would alter
(single quote, backslash, double quote), then parsing the reply
`\x7b"route":"n"\x7d` returns `Some((n, m))`. -/
theorem c7_route_model_roundtrip
    (entries : List (Str × List RoutingPreference)) (routingModel : Str)
    (maxLen : Nat) (n m d : Str) (ps : List RoutingPreference)
    (hmem : (m, ps) ∈ entries)
    (hpref : (⟨n, d⟩ : RoutingPreference) ∈ ps)
    (huniq : ∀ p ∈ entries, ∀ pref ∈ p.2, pref.name = n → p.1 = m)
    (hne : n ≠ []) (hother : n ≠ "other".data)
    (hsafe : ∀ c ∈ n, c ≠ sqc ∧ c ≠ bsc ∧ c ≠ dqc) :
    (RouterModelV1.new entries routingModel maxLen).parse_response
      ("\x7b\"route\":\"".data ++ (n ++ "\"\x7d".data)) none =
      .ok (some (n, m)) := by
  have hlit1 : ∀ c ∈ "\x7b\"route\":\"".data, c ≠ sqc ∧ c ≠ bsc := by decide
  have hlit2 : ∀ c ∈ "\"\x7d".data, c ≠ sqc ∧ c ≠ bsc := by decide
  have hrchars : ∀ c ∈ "\x7b\"route\":\"".data ++ (n ++ "\"\x7d".data),
      c ≠ sqc ∧ c ≠ bsc := by
    intro c hc
    rcases List.mem_append.mp hc with h | h
    · exact hlit1 c h
    · rcases List.mem_append.mp h with h2 | h2
      · exact ⟨(hsafe c h2).1, (hsafe c h2).2.1⟩
      · exact hlit2 c h2
  have hsq : occursB [sqc] ("\x7b\"route\":\"".data ++ (n ++ "\"\x7d".data))
      = false :=
    occursB_single_eq_false sqc _ (fun c hc => (hrchars c hc).1)
  have hbs : occursB [bsc, 'n']
      ("\x7b\"route\":\"".data ++ (n ++ "\"\x7d".data)) = false :=
    occursB_pair_eq_false bsc 'n' _ (fun c hc => (hrchars c hc).2)
  have hfence1 : ("```json".data.isPrefixOf
      ("\x7b\"route\":\"".data ++ (n ++ "\"\x7d".data))) = false :=
    isPrefixOf_false_of_head_ne _ _ btc lbc rfl rfl (by decide)
  have hlastr : ("\x7b\"route\":\"".data ++
      (n ++ "\"\x7d".data)).getLast? = some rbc := by
    rw [List.getLast?_append, List.getLast?_append]
    rfl
  have hfence2 : ("```".data.isSuffixOf
      ("\x7b\"route\":\"".data ++ (n ++ "\"\x7d".data))) = false :=
    isSuffixOf_false_of_last_ne _ _ rbc btc hlastr (by decide) (by decide)
  have hclean : fix_json_response
      ("\x7b\"route\":\"".data ++ (n ++ "\"\x7d".data)) =
      "\x7b\"route\":\"".data ++ (n ++ "\"\x7d".data) :=
    fix_json_id _ hsq hbs hfence1 hfence2
  have hnotEmpty : ¬ ((("\x7b\"route\":\"".data ++
      (n ++ "\"\x7d".data)).isEmpty) = true) := by
    simp [List.isEmpty_iff]
  unfold RouterModelV1.parse_response
  rw [if_neg hnotEmpty, hclean,
    parseJson_route n (fun c hc => ⟨(hsafe c hc).2.2, (hsafe c hc).2.1⟩)]
  change (if (n.isEmpty || (n == "other".data)) = true then Except.ok none
    else
      match hashLookup ((entries.map fun mp =>
          mp.2.map fun pref => (pref.name, mp.1)).flatten) n with
      | some model => Except.ok (some (n, model))
      | none => Except.ok none) = Except.ok (some (n, m))
  have hcond : (n.isEmpty || (n == "other".data)) = false := by
    have h1 : n.isEmpty = false := by
      cases n with
      | nil => exact absurd rfl hne
      | cons _ _ => rfl
    rw [h1, beq_eq_false_iff_ne.mpr hother]
    rfl
  rw [hcond]
  simp only [Bool.false_eq_true, if_false]
  have hmm2 : (n, m) ∈ (entries.map fun mp =>
      mp.2.map fun pref => (pref.name, mp.1)).flatten := by
    apply List.mem_flatten.mpr
    refine ⟨ps.map fun pref => (pref.name, m), ?_, ?_⟩
    · exact List.mem_map.mpr ⟨(m, ps), hmem, rfl⟩
    · exact List.mem_map.mpr ⟨⟨n, d⟩, hpref, rfl⟩
  have hall : ∀ x ∈ (entries.map fun mp =>
      mp.2.map fun pref => (pref.name, mp.1)).flatten, x.1 = n → x.2 = m := by
    intro x hx hx1
    obtain ⟨l, hl, hxl⟩ := List.mem_flatten.mp hx
    obtain ⟨mp, hmp, rfl⟩ := List.mem_map.mp hl
    obtain ⟨pref, hprefm, rfl⟩ := List.mem_map.mp hxl
    exact huniq mp hmp pref hprefm hx1
  rw [hashLookup_all_eq _ n m hmm2 hall]

theorem fix_eq_specClean (body : Str) :
    fix_json_response body = specCleanStages body := by
  simp only [fix_json_response, specCleanStages]
  by_cases h : occursB [bsc, 'n'] (replaceAll [sqc] [dqc] body) = true
  · rw [if_pos h]
  · have hf : occursB [bsc, 'n'] (replaceAll [sqc] [dqc] body) = false :=
      Bool.of_not_eq_true h
    rw [if_neg h, replaceAll_of_not_occurs _ _ _ hf]

theorem route_case {β : Type} (routeOpt : Option Str) (k : Str → β) (z : β) :
    (let selected := routeOpt.getD []
     if (selected.isEmpty || (selected == "other".data)) = true then z
     else k selected) =
    (match routeOpt with
     | none => z
     | some route =>
       if route = [] ∨ route = "other".data then z
       else k route) := by
  cases routeOpt with
  | none => simp
  | some route =>
    show (if (route.isEmpty || (route == "other".data)) = true then z
      else k route) = _
    by_cases hcase : route = [] ∨ route = "other".data
    · have hb : (route.isEmpty || (route == "other".data)) = true := by
        rcases hcase with h | h <;> simp [h]
      rw [if_pos hb]
      show _ = if route = [] ∨ route = "other".data then z else k route
      rw [if_pos hcase]
    · have hb : (route.isEmpty || (route == "other".data)) = false := by
        push_neg at hcase
        have h1' : route.isEmpty = false := by
          cases route with
          | nil => exact absurd rfl hcase.1
          | cons _ _ => rfl
        rw [h1', beq_eq_false_iff_ne.mpr hcase.2]
        rfl
      rw [if_neg (by rw [hb]; simp)]
      show _ = if route = [] ∨ route = "other".data then z else k route
      rw [if_neg hcase]

/-- **C6** (amended).  `parse_response` equals the staged cleaner the
spec describes — empty input is `None`; the input is cleaned by quote
replacement, literal backslash-n deletion, then the two fence strips, in
that order; a cleaned string that fails to parse yields a
`RoutingModelError::JsonError` wrapping only the parser diagnostic (the
cleaned string is *not* included); a `route` that is absent, null, empty
or `"other"` yields `None`. -/
theorem c6_parse_response_staged (rm : RouterModelV1) (content : Str)
    (prefs : Option (List ModelUsagePreference)) :
    rm.parse_response content prefs = specParseResponse rm content prefs := by
  unfold RouterModelV1.parse_response specParseResponse
  cases content with
  | nil => rfl
  | cons c rest =>
    rw [if_neg (by simp : ¬ (((c :: rest).isEmpty) = true)),
      if_neg (by simp : ¬ (c :: rest = ([] : Str)))]
    rw [fix_eq_specClean]
    congr 1
    funext j
    congr 1
    funext routeOpt
    exact route_case routeOpt
      (fun selected =>
        match prefs with
        | some ups =>
          match (ups.filterMap fun pref =>
              if (pref.routing_preferences.any fun rp =>
                  rp.name == selected) = true
              then some pref.model else none).head? with
          | some model => Except.ok (some (selected, model))
          | none => Except.ok none
        | none =>
          match hashLookup rm.llm_route_to_model_map selected with
          | some model => Except.ok (some (selected, model))
          | none => Except.ok none)
      (Except.ok none)

/-- **C1** (amended).  A router reply that the Response Parser cannot
parse does *not* become a `None` decision with fallback: the error
propagates out of `determine_route` (the question-mark operator at
llm_router.rs line 159) and the proxy answers 500 Internal Server Error.
Fallback to the client-supplied model happens exactly when the decision
is `Ok(None)`. -/
theorem c1_parse_error_propagates (chs : List Choice)
    (ups : Option (List ModelUsagePreferenceRec))
    (pm : List (Str × LlmProvider)) (reqModel : Str) :
    (∀ e, determine_route_post chs ups pm = .error e →
      routeDecisionToAction (determine_route_post chs ups pm) reqModel =
        .respond500) ∧
    (determine_route_post chs ups pm = .ok none →
      routeDecisionToAction (determine_route_post chs ups pm) reqModel =
        .forward reqModel) ∧
    (∀ content e,
      chs = [⟨⟨"assistant".data, some (.text content)⟩⟩] →
      parse_response_v0 content = .error e →
      determine_route_post chs ups pm = .error (.routerModelError e)) := by
  refine ⟨?_, ?_, ?_⟩
  · intro e he
    rw [he]
    rfl
  · intro he
    rw [he]
    rfl
  · intro content e hch hp
    subst hch
    simp only [determine_route_post, hp]

/-- **C10**.  When the router selects a route whose configured provider
has a `usage` but no `model` (and no per-request override is in effect),
`determine_route` returns `Ok(None)` and the proxy falls back to the
client-supplied model for the `x-arch-llm-provider-hint` header. -/
theorem c10_usage_without_model_falls_back (content : Str)
    (pm : List (Str × LlmProvider)) (prov : LlmProvider) (n reqModel : Str)
    (hparse : parse_response_v0 content = .ok (some n))
    (hlook : hashLookup pm n = some prov)
    (_husage : prov.usage.isSome)
    (hmodel : prov.model = none) :
    determine_route_post
        [⟨⟨"assistant".data, some (.text content)⟩⟩] none pm = .ok none ∧
    routeDecisionToAction
      (determine_route_post
        [⟨⟨"assistant".data, some (.text content)⟩⟩] none pm) reqModel =
      .forward reqModel := by
  have h1 : determine_route_post
      [⟨⟨"assistant".data, some (.text content)⟩⟩] none pm = .ok none := by
    simp only [determine_route_post, hparse]
    by_cases hn : n = "other".data
    · rw [if_pos hn]
    · rw [if_neg hn, hlook]
      dsimp only
      rw [hmodel]
  refine ⟨h1, ?_⟩
  rw [h1]
  rfl

/-- **C3** (code bug).  A body that parses as generic JSON but is not a
valid typed chat-completions request reaches the `.unwrap()` at
chat_completions.rs lines 58-59 with an `Err` — a panic on the request
path; only a body whose generic JSON parse fails is answered 400. -/
theorem c3_typed_parse_panics :
    chatCompletionsParse "[1,2,3]".data = .panicked ∧
    chatCompletionsParse "not json".data =
      .badRequest "Request body is not valid JSON".data := by
  decide

theorem pump_nil (sendOk : Nat → Bool) (i : Nat) :
    pump sendOk [] i = ([], 0) := rfl

theorem pump_err (sendOk : Nat → Bool) (e : Unit)
    (rest : List (Except Unit Str)) (i : Nat) :
    pump sendOk (.error e :: rest) i = ([], 1) := rfl

theorem pump_ok_true (sendOk : Nat → Bool) (c : Str)
    (rest : List (Except Unit Str)) (i : Nat) (h : sendOk i = true) :
    pump sendOk (.ok c :: rest) i =
      (c :: (pump sendOk rest (i + 1)).1,
        (pump sendOk rest (i + 1)).2 + 1) := by
  simp only [pump, h, if_true]

theorem pump_ok_false (sendOk : Nat → Bool) (c : Str)
    (rest : List (Except Unit Str)) (i : Nat) (h : sendOk i = false) :
    pump sendOk (.ok c :: rest) i = ([], 1) := by
  simp only [pump, h, Bool.false_eq_true, if_false]

theorem pump_sent_chunkPre (sendOk : Nat → Bool) :
    ∀ (l : List (Except Unit Str)) (i : Nat),
      (pump sendOk l i).1 <+: okChunks l := by
  intro l
  induction l with
  | nil => intro i; exact List.nil_prefix
  | cons x rest ih =>
    intro i
    cases x with
    | error e => exact List.nil_prefix
    | ok c =>
      by_cases h : sendOk i
      · rw [pump_ok_true sendOk c rest i h]
        have hok : okChunks (Except.ok c :: rest) = c :: okChunks rest := rfl
        rw [hok]
        exact List.cons_prefix_cons.mpr ⟨rfl, ih (i + 1)⟩
      · rw [pump_ok_false sendOk c rest i (Bool.of_not_eq_true h)]
        exact List.nil_prefix

theorem pump_error (sendOk : Nat → Bool) :
    ∀ (pre : List (Except Unit Str)) (i : Nat) (e : Unit)
      (rest : List (Except Unit Str)),
      (pump sendOk (pre ++ .error e :: rest) i).1 =
        (pump sendOk pre i).1 ∧
      (pump sendOk (pre ++ .error e :: rest) i).2 ≤ pre.length + 1 := by
  intro pre
  induction pre with
  | nil => intro i e rest; exact ⟨rfl, le_refl 1⟩
  | cons x pre' ih =>
    intro i e rest
    cases x with
    | error e' =>
      rw [show (Except.error e' :: pre') ++ .error e :: rest =
        Except.error e' :: (pre' ++ .error e :: rest) from rfl,
        pump_err, pump_err]
      exact ⟨rfl, by simp⟩
    | ok c =>
      have hih := ih (i + 1) e rest
      by_cases h : sendOk i
      · rw [show (Except.ok c :: pre') ++ .error e :: rest =
          Except.ok c :: (pre' ++ .error e :: rest) from rfl,
          pump_ok_true sendOk c _ i h, pump_ok_true sendOk c pre' i h]
        dsimp only
        refine ⟨by rw [hih.1], ?_⟩
        have := hih.2
        simp only [List.length_cons]
        omega
      · rw [show (Except.ok c :: pre') ++ .error e :: rest =
          Except.ok c :: (pre' ++ .error e :: rest) from rfl,
          pump_ok_false sendOk c _ i (Bool.of_not_eq_true h),
          pump_ok_false sendOk c pre' i (Bool.of_not_eq_true h)]
        exact ⟨rfl, by simp⟩

theorem pump_disconnect (sendOk : Nat → Bool) :
    ∀ (l : List (Except Unit Str)) (i i0 : Nat), i ≤ i0 →
      sendOk i0 = false →
      (pump sendOk l i).1.length ≤ i0 - i ∧
      (pump sendOk l i).2 ≤ i0 - i + 1 := by
  intro l
  induction l with
  | nil =>
    intro i i0 _ _
    rw [pump_nil]
    exact ⟨Nat.zero_le _, Nat.zero_le _⟩
  | cons x rest ih =>
    intro i i0 hle h0
    cases x with
    | error e =>
      rw [pump_err]
      exact ⟨Nat.zero_le _, by dsimp only; omega⟩
    | ok c =>
      by_cases h : sendOk i
      · have hne : i ≠ i0 := by
          intro hc
          rw [hc, h0] at h
          exact absurd h (by simp)
        have hlt : i + 1 ≤ i0 := by omega
        have hih := ih (i + 1) i0 hlt h0
        rw [pump_ok_true sendOk c rest i h]
        dsimp only
        constructor
        · simp only [List.length_cons]
          omega
        · omega
      · rw [pump_ok_false sendOk c rest i (Bool.of_not_eq_true h)]
        exact ⟨Nat.zero_le _, by dsimp only; omega⟩

/-- **C8**.  The streaming forward loop delivers a prefix (hence an
order-preserving subsequence, with no insertion) of the upstream `Ok`
bytes; an upstream error item ends the output after the already-forwarded
prefix without reading past it; and once a channel send fails (client
disconnected) at most that many chunks were sent and at most one further
upstream item was read.  The bounded channel and task scheduling are
abstracted by `sendOk`, the per-chunk send success. -/
theorem c8_streaming (chunks : List (Except Unit Str))
    (sendOk : Nat → Bool) :
    (pumpSent chunks sendOk).flatten <+: (okChunks chunks).flatten ∧
    (∀ pre e rest, chunks = pre ++ .error e :: rest →
      pumpSent chunks sendOk = pumpSent pre sendOk ∧
      pumpReads chunks sendOk ≤ pre.length + 1) ∧
    (∀ i, sendOk i = false →
      (pumpSent chunks sendOk).length ≤ i ∧
      pumpReads chunks sendOk ≤ i + 1) := by
  refine ⟨flatten_pre_of_pre _ _ (pump_sent_chunkPre sendOk chunks 0), ?_, ?_⟩
  · rintro pre e rest rfl
    exact pump_error sendOk pre 0 e rest
  · intro i hi
    have := pump_disconnect sendOk chunks 0 i (Nat.zero_le i) hi
    simpa using this

/-- **C2** (amended).  The preferences batch is keyed and validated by
each entry's `model` field, not its `name` field: the whole batch fails
with 400 and the catalog is unchanged exactly when some entry's `model`
value matches no configured provider *name*; otherwise only providers
whose name equals some entry's `model` value have their `usage` replaced
(name and model are never modified). -/
theorem c2_update_preferences_matching (providers : List LlmProvider)
    (batch : List ModelUsagePreferenceRec) :
    ((∃ u ∈ batch, u.model ∉ providers.map LlmProvider.name) →
      (update_preferences providers batch).status = 400 ∧
      (update_preferences providers batch).providers = providers ∧
      (update_preferences providers batch).updated = []) ∧
    ((∀ u ∈ batch, u.model ∈ providers.map LlmProvider.name) →
      (update_preferences providers batch).providers.length =
        providers.length ∧
      ∀ pq ∈ providers.zip (update_preferences providers batch).providers,
        pq.2.name = pq.1.name ∧ pq.2.model = pq.1.model ∧
        ((∀ u ∈ batch, u.model ≠ pq.1.name) → pq.2 = pq.1)) := by
  constructor
  · rintro ⟨u, hu, hnot⟩
    have hany : (batch.any fun u =>
        !((providers.map LlmProvider.name).contains u.model)) = true := by
      apply List.any_eq_true.mpr
      refine ⟨u, hu, ?_⟩
      simp [hnot]
    unfold update_preferences
    rw [if_pos hany]
    exact ⟨rfl, rfl, rfl⟩
  · intro hall
    have hany : (batch.any fun u =>
        !((providers.map LlmProvider.name).contains u.model)) = false := by
      rw [Bool.eq_false_iff]
      intro hc
      obtain ⟨u, hu, hbad⟩ := List.any_eq_true.mp hc
      have hmem : u.model ∈ providers.map LlmProvider.name := hall u hu
      simp [hmem] at hbad
    have hres : (update_preferences providers batch).providers =
        providers.map (fun p =>
          match lastEntryFor batch p.name with
          | some u => { p with usage := u.usage }
          | none => p) := by
      unfold update_preferences
      rw [if_neg (by rw [hany]; simp)]
      dsimp only
      split <;> rfl
    constructor
    · rw [hres, List.length_map]
    · intro pq hpq
      rw [hres] at hpq
      have hzip : providers.zip (providers.map fun p =>
          match lastEntryFor batch p.name with
          | some u => { p with usage := u.usage }
          | none => p) =
          providers.map (fun p => (p,
            match lastEntryFor batch p.name with
            | some u => { p with usage := u.usage }
            | none => p)) := by
        have h1 : providers.zip (providers.map fun p =>
            match lastEntryFor batch p.name with
            | some u => { p with usage := u.usage }
            | none => p) =
            (providers.map id).zip (providers.map fun p =>
              match lastEntryFor batch p.name with
              | some u => { p with usage := u.usage }
              | none => p) := by
          rw [List.map_id]
        rw [h1, List.zip_map']
        simp
      rw [hzip] at hpq
      obtain ⟨p, hp, rfl⟩ := List.mem_map.mp hpq
      refine ⟨?_, ?_, ?_⟩
      · cases hle : lastEntryFor batch p.name <;> simp [hle]
      · cases hle : lastEntryFor batch p.name <;> simp [hle]
      · intro hno
        have hnone : lastEntryFor batch p.name = none := by
          unfold lastEntryFor
          rw [List.filter_eq_nil_iff.mpr]
          · rfl
          · intro u hu
            simp [hno u hu]
        simp [hnone]

/-- **C1** witness: a concrete unparsable reply is answered 500. -/
theorem c1_witness :
    routeDecisionToAction
      (determine_route_post
        [⟨⟨"assistant".data, some (.text "\x7b\"route\"".data)⟩⟩] none [])
      "gpt-4o".data = .respond500 :=
  (c1_parse_error_propagates
    [⟨⟨"assistant".data, some (.text "\x7b\"route\"".data)⟩⟩] none []
    "gpt-4o".data).1 (.routerModelError (.jsonError .eof)) (by decide)

/-- **C1** counterexample to the claim as stated: with a routable
catalog, an unparsable router reply yields an error and a 500 response,
not a `None` decision forwarded with the client-supplied model. -/
theorem c1_counterexample :
    determine_route_post
        [⟨⟨"assistant".data, some (.text "\x7b\"route\": \"x\"".data)⟩⟩]
        none
        [("code".data, ⟨"code".data, some "m".data, some "u".data⟩)] =
      .error (.routerModelError (.jsonError .eof)) ∧
    routeDecisionToAction
      (determine_route_post
        [⟨⟨"assistant".data, some (.text "\x7b\"route\": \"x\"".data)⟩⟩]
        none
        [("code".data, ⟨"code".data, some "m".data, some "u".data⟩)])
      "gpt-4o".data = .respond500 ∧
    routeDecisionToAction
      (determine_route_post
        [⟨⟨"assistant".data, some (.text "\x7b\"route\": \"x\"".data)⟩⟩]
        none
        [("code".data, ⟨"code".data, some "m".data, some "u".data⟩)])
      "gpt-4o".data ≠ .forward "gpt-4o".data := by
  decide

/-- **C10** witness at a concrete provider without a `model`. -/
theorem c10_witness :
    determine_route_post
        [⟨⟨"assistant".data, some (.text "\x7b\"route\":\"code\"\x7d".data)⟩⟩]
        none [("code".data, ⟨"code".data, none, some "coding".data⟩)] =
      .ok none ∧
    routeDecisionToAction
      (determine_route_post
        [⟨⟨"assistant".data, some (.text "\x7b\"route\":\"code\"\x7d".data)⟩⟩]
        none [("code".data, ⟨"code".data, none, some "coding".data⟩)])
      "gpt-4o".data = .forward "gpt-4o".data :=
  c10_usage_without_model_falls_back "\x7b\"route\":\"code\"\x7d".data
    [("code".data, ⟨"code".data, none, some "coding".data⟩)]
    ⟨"code".data, none, some "coding".data⟩ "code".data "gpt-4o".data
    (by decide) (by decide) (by decide) (by decide)

/-- **C2** witness: a batch whose entry's `model` value names no
provider is rejected wholesale with the catalog unchanged. -/
theorem c2_witness :
    (update_preferences [⟨"p1".data, some "m1".data, some "old".data⟩]
      [⟨"p1".data, "nope".data, some "new".data⟩]).status = 400 ∧
    (update_preferences [⟨"p1".data, some "m1".data, some "old".data⟩]
      [⟨"p1".data, "nope".data, some "new".data⟩]).providers =
        [⟨"p1".data, some "m1".data, some "old".data⟩] ∧
    (update_preferences [⟨"p1".data, some "m1".data, some "old".data⟩]
      [⟨"p1".data, "nope".data, some "new".data⟩]).updated = [] :=
  (c2_update_preferences_matching
    [⟨"p1".data, some "m1".data, some "old".data⟩]
    [⟨"p1".data, "nope".data, some "new".data⟩]).1
    ⟨⟨"p1".data, "nope".data, some "new".data⟩, by decide, by decide⟩

/-- **C2** counterexample to the claim as stated: an entry whose `name`
(`zzz`) matches no provider — but whose `model` field happens to name
provider `p1` — is *applied*: the batch succeeds with 200 and the
catalog changes. -/
theorem c2_counterexample :
    (update_preferences [⟨"p1".data, some "m1".data, some "old".data⟩]
      [⟨"zzz".data, "p1".data, some "new".data⟩]).status = 200 ∧
    (update_preferences [⟨"p1".data, some "m1".data, some "old".data⟩]
      [⟨"zzz".data, "p1".data, some "new".data⟩]).providers ≠
        [⟨"p1".data, some "m1".data, some "old".data⟩] ∧
    "zzz".data ∉
      ([⟨"p1".data, some "m1".data, some "old".data⟩] :
        List LlmProvider).map LlmProvider.name := by
  decide

/-- **C8** witness: an upstream error item truncates the delivery to the
preceding prefix and stops the reads. -/
theorem c8_witness :
    pumpSent [Except.ok "ab".data, Except.error (), Except.ok "cd".data]
        (fun _ => true) =
      pumpSent [Except.ok "ab".data] (fun _ => true) ∧
    pumpReads [Except.ok "ab".data, Except.error (), Except.ok "cd".data]
        (fun _ => true) ≤ 2 :=
  ((c8_streaming
    [Except.ok "ab".data, Except.error (), Except.ok "cd".data]
    (fun _ => true)).2.1) [Except.ok "ab".data] () [Except.ok "cd".data]
    rfl

/-- **C6** counterexample to the "includes the cleaned string" part of
the claim: two replies with *different* cleaned strings produce the
*identical* `JsonError` value, so the error cannot include (or
determine) the cleaned string. -/
theorem c6_counterexample :
    (RouterModelV1.new [] "m".data 2048).parse_response
        "\x7b\"route\": \"aaaa\"".data none =
      .error (.jsonError .eof) ∧
    (RouterModelV1.new [] "m".data 2048).parse_response
        "\x7b\"route\": \"bbbb\"".data none =
      .error (.jsonError .eof) ∧
    fix_json_response "\x7b\"route\": \"aaaa\"".data ≠
      fix_json_response "\x7b\"route\": \"bbbb\"".data := by
  decide

/-- **C7** witness at a concrete one-provider catalog. -/
theorem c7_witness :
    (RouterModelV1.new
        [("gpt-4o".data, [⟨"img".data, "d".data⟩])]
        "rm".data 2048).parse_response
      ("\x7b\"route\":\"".data ++ ("img".data ++ "\"\x7d".data)) none =
      .ok (some ("img".data, "gpt-4o".data)) :=
  c7_route_model_roundtrip
    [("gpt-4o".data, [⟨"img".data, "d".data⟩])] "rm".data 2048
    "img".data "gpt-4o".data "d".data [⟨"img".data, "d".data⟩]
    (by decide) (by decide) (by decide) (by decide) (by decide) (by decide)

/-- **C7** counterexample to the claim as stated: a routable provider
whose route name is literally `other` never resolves — the sentinel
check returns `None` before resolution. -/
theorem c7_counterexample :
    (RouterModelV1.new [("gpt-4o".data, [⟨"other".data, "d".data⟩])]
        "rm".data 2048).parse_response
      "\x7b\"route\":\"other\"\x7d".data none = .ok none ∧
    (RouterModelV1.new [("gpt-4o".data, [⟨"other".data, "d".data⟩])]
        "rm".data 2048).parse_response
      "\x7b\"route\":\"other\"\x7d".data none ≠
      .ok (some ("other".data, "gpt-4o".data)) := by
  decide

end Archgw
